import Mathlib

/-
Verification development for the ETL pipeline in `etl.py` (single-file
Python program).  The Python source is shallowly embedded below:

* pandas cell values are modelled by `Val` (NaN / None / pd.NA / str / int);
* a pandas DataFrame is modelled by `Frame` (ordered header + row-major cells);
* the dictionaries `TABLE_FILE_MAPPING` and `PRIMARY_KEYS` are copied verbatim;
* the SQL-text construction of `load_data_from_csv` (lines 179-199) is
  reproduced character-for-character, including the f-string whitespace;
* the control flow of `load_data_from_csv` (lines 140-237) is embedded as a
  function from an environment of possible failure points (the outcomes of
  the fallible external calls: audit-insert, file read, TRUNCATE,
  execute_batch, COMMIT) to a result together with a trace of the database
  and audit events it performs, in source order;
* the driver loop of `main` (lines 270-275) is embedded as structural
  recursion over the configured table list, one `load_data_from_csv` call per
  table, never short-circuiting (the `except/continue` of the source).

Python string primitives used by the source (`str.strip`, `str.lower`,
slicing `x[:3]`) are re-implemented on `List Char`, which matches Python's
code-point semantics (restricted to ASCII case mapping, the only case the
source data exercises).
-/

set_option maxRecDepth 100000

/-- Cell values of a pandas DataFrame as they matter to this program:
the three distinct missing-value objects (numpy NaN, Python None, pandas NA),
strings, and integers. -/
inductive Val where
  | vNaN : Val
  | vNone : Val
  | vNA : Val
  | vStr (s : String) : Val
  | vInt (n : Int) : Val
deriving DecidableEq, Repr

/-- Embedding of `pd.isna` on a single cell: true exactly on the three
missing-value objects. -/
def pd_isna (v : Val) : Bool :=
  match v with
  | Val.vNaN => true
  | Val.vNone => true
  | Val.vNA => true
  | Val.vStr _ => false
  | Val.vInt _ => false

/-- Embedding of a parsed DataFrame: ordered column names plus row-major
cells (`df.to_numpy()` order). -/
structure Frame where
  header : List String
  rows : List (List Val)
deriving DecidableEq, Repr

/-- Python `', '.join(xs)`. -/
def join_comma (xs : List String) : String :=
  String.intercalate ", " xs

/-- Python `f'"{col}"'`: double-quote a column name. -/
def quote_col (c : String) : String :=
  "\"" ++ c ++ "\""

/-- Dictionary `TABLE_FILE_MAPPING` of `etl.py` (lines 46-53); the file
paths keep only their basename since `DATA_DIR` is machine-dependent. -/
def TABLE_FILE_MAPPING : List (String × String) :=
  [("ds.ft_balance_f", "ft_balance_f.csv"),
   ("ds.ft_posting_f", "ft_posting_f.csv"),
   ("ds.md_account_d", "md_account_d.csv"),
   ("ds.md_currency_d", "md_currency_d.csv"),
   ("ds.md_exchange_rate_d", "md_exchange_rate_d.csv"),
   ("ds.md_ledger_account_s", "md_ledger_account_s.csv")]

/-- Dictionary `PRIMARY_KEYS` of `etl.py` (lines 56-63); the entry for the
posting-fact table is Python `None`, embedded as `none`. -/
def PRIMARY_KEYS : List (String × Option (List String)) :=
  [("ds.ft_balance_f", some ["on_date", "account_rk"]),
   ("ds.ft_posting_f", none),
   ("ds.md_account_d", some ["data_actual_date", "account_rk"]),
   ("ds.md_currency_d", some ["currency_rk", "data_actual_date"]),
   ("ds.md_exchange_rate_d", some ["data_actual_date", "currency_rk"]),
   ("ds.md_ledger_account_s", some ["ledger_account", "start_date"])]

/-- Python `dict.get`: first binding of the key, or `none` when absent. -/
def dict_get {α : Type} (d : List (String × α)) (k : String) : Option α :=
  (d.find? (fun p => p.1 = k)).map Prod.snd

/-- Base insert statement of `load_data_from_csv` (lines 180-187): the
f-string `INSERT INTO {table} ({columns}) VALUES ({placeholders})` with its
exact whitespace; columns double-quoted in parsed order, one `%s`
placeholder per column. -/
def plain_insert (table_name : String) (columns : List String) : String :=
  let columns_str := join_comma (columns.map quote_col)
  let placeholders := join_comma (columns.map (fun _ => "%s"))
  "\n        INSERT INTO " ++ table_name ++ " (" ++ columns_str ++
    ")\n        VALUES (" ++ placeholders ++ ")\n        "

/-- Conflict clause of `load_data_from_csv` (lines 190-199): keyed on the
declared primary-key columns, assigning every parsed column not among the
keys to its `EXCLUDED` value, with the f-string's exact whitespace
(including the space after the closing parenthesis). -/
def on_conflict_clause (pks : List String) (columns : List String) : String :=
  let conflict_columns := join_comma (pks.map quote_col)
  let update_columns := join_comma
    ((columns.filter (fun c => !(pks.contains c))).map
      (fun c => quote_col c ++ " = EXCLUDED." ++ quote_col c))
  "\n            ON CONFLICT (" ++ conflict_columns ++
    ") \n            DO UPDATE SET " ++ update_columns ++ "\n            "

/-- Full insert statement built by `load_data_from_csv` (lines 179-199):
the base insert, extended with the conflict clause exactly when
`PRIMARY_KEYS.get(table_name)` is truthy in Python (present, not `None`,
and a non-empty list). -/
def insert_query_for (table_name : String) (columns : List String) : String :=
  match dict_get PRIMARY_KEYS table_name with
  | some (some pks) =>
      if pks.isEmpty then plain_insert table_name columns
      else plain_insert table_name columns ++ on_conflict_clause pks columns
  | some none => plain_insert table_name columns
  | none => plain_insert table_name columns

/-- Python whitespace test for `str.strip` (ASCII whitespace, the only
whitespace occurring in the source files). -/
def py_isspace (c : Char) : Bool :=
  c = ' ' || c = '\t' || c = '\n' || c = '\r' || c = '\x0b' || c = '\x0c'

/-- Python `str.strip()` on a code-point list. -/
def py_strip_list (l : List Char) : List Char :=
  ((l.dropWhile py_isspace).reverse.dropWhile py_isspace).reverse

/-- Python `str.lower()` restricted to ASCII letters, per code point. -/
def py_lower_char (c : Char) : Char :=
  if 65 <= c.toNat && c.toNat <= 90 then Char.ofNat (c.toNat + 32) else c

/-- Column-name normalization of `load_data_from_csv` line 153:
`df.columns.str.strip().str.lower()` applied to one name. -/
def normalize_col_name (s : String) : String :=
  String.mk ((py_strip_list s.data).map py_lower_char)

/-- Header normalization of `load_data_from_csv` line 153, applied to the
whole frame (the rows are untouched). -/
def normalize_header (f : Frame) : Frame :=
  { f with header := f.header.map normalize_col_name }

/-- ASCII digit test (code points 48-57), as `strptime` accepts. -/
def py_isdigit (c : Char) : Bool :=
  48 <= c.toNat && c.toNat <= 57

/-- Greedy digit scanner of C `strptime`: consume up to `k` leading ASCII
digits, returning them and the remainder. -/
def spanDigits (k : Nat) (cs : List Char) : List Char × List Char :=
  match k, cs with
  | 0, cs => ([], cs)
  | _ + 1, [] => ([], [])
  | k + 1, c :: rest =>
      if py_isdigit c then
        let p := spanDigits k rest
        (c :: p.1, p.2)
      else ([], c :: rest)

/-- Numeric value of a digit string. -/
def digitsVal (cs : List Char) : Nat :=
  cs.foldl (fun a c => a * 10 + (c.toNat - 48)) 0

/-- Gregorian leap-year test, as in Python `datetime`. -/
def is_leap (y : Nat) : Bool :=
  (y % 4 = 0 && y % 100 != 0) || y % 400 = 0

/-- Days in a month, as validated by Python `datetime`. -/
def daysInMonth (y m : Nat) : Nat :=
  if m = 2 then (if is_leap y then 29 else 28)
  else if m = 4 || m = 6 || m = 9 || m = 11 then 30
  else 31

/-- Embedding of `pd.to_datetime(-, format='%d.%m.%Y')` on one string:
`%d` and `%m` greedily match one or two digits, `%Y` up to four, the two
dots are literal, the whole string must be consumed, and the triple must be
a real calendar date (as `datetime` validates).  Out-of-range pandas
Timestamps (years outside 1677-2262) also coerce to NaT in pandas; that
check is omitted here as it only moves further inputs to the null branch. -/
def parse_ddmmyyyy (s : String) : Option (Nat × Nat × Nat) :=
  let p1 := spanDigits 2 s.data
  if p1.1.isEmpty then none else
  match p1.2 with
  | '.' :: r2 =>
      let p2 := spanDigits 2 r2
      if p2.1.isEmpty then none else
      match p2.2 with
      | '.' :: r4 =>
          let p3 := spanDigits 4 r4
          if p3.1.isEmpty || !p3.2.isEmpty then none else
          let d := digitsVal p1.1
          let m := digitsVal p2.1
          let y := digitsVal p3.1
          if 1 <= y && 1 <= m && m <= 12 && 1 <= d && d <= daysInMonth y m
          then some (d, m, y) else none
      | _ => none
  | _ => none

/-- One decimal digit as a character. -/
def digitChar (n : Nat) : Char :=
  match n % 10 with
  | 0 => '0' | 1 => '1' | 2 => '2' | 3 => '3' | 4 => '4'
  | 5 => '5' | 6 => '6' | 7 => '7' | 8 => '8' | _ => '9'

/-- Two-digit zero-padded field of `strftime` (`%m`, `%d`). -/
def pad2 (n : Nat) : List Char :=
  [digitChar (n / 10), digitChar n]

/-- Four-digit zero-padded field of `strftime` (`%Y`, for years below 10000). -/
def pad4 (n : Nat) : List Char :=
  [digitChar (n / 1000), digitChar (n / 100), digitChar (n / 10), digitChar n]

/-- Embedding of `.dt.strftime('%Y-%m-%d')` on a parsed date. -/
def formatISO (y m d : Nat) : String :=
  String.mk (pad4 y ++ '-' :: (pad2 m ++ '-' :: pad2 d))

/-- Cell transform of `load_data_from_csv` line 157 for `ds.ft_balance_f`:
`pd.to_datetime(df['on_date'], format='%d.%m.%Y', errors='coerce')
.dt.strftime('%Y-%m-%d')`.  A parseable string becomes the ISO rendering;
anything else (unparseable string, non-string, missing value) coerces to
NaT and `strftime` maps NaT to NaN. -/
def balance_on_date_cell (v : Val) : Val :=
  match v with
  | Val.vStr s =>
      match parse_ddmmyyyy s with
      | some (d, m, y) => Val.vStr (formatISO y m d)
      | none => Val.vNaN
  | _ => Val.vNaN

/-- Sentinel "missing" tokens replaced at `load_data_from_csv` line 165. -/
def sentinels : List String := ["nan", "None", "<NA>"]

/-- Python `str()` of a cell, as `Series.astype(str)` renders it: the three
missing-value objects print as `nan`, `None`, `<NA>`; strings are
unchanged; integers print in decimal. -/
def astype_str_cell (v : Val) : String :=
  match v with
  | Val.vNaN => "nan"
  | Val.vNone => "None"
  | Val.vNA => "<NA>"
  | Val.vStr s => s
  | Val.vInt n => toString n

/-- Replacement step of line 165: `.replace(['nan', 'None', '<NA>'], None)`
maps a cell equal to a sentinel token to Python `None`. -/
def replace_sentinel (v : Val) : Val :=
  match v with
  | Val.vStr s => if sentinels.contains s then Val.vNone else v
  | _ => v

/-- Python slice `x[:3]` on code points. -/
def py_take3 (s : String) : String :=
  String.mk (s.data.take 3)

/-- Truncation step of line 167:
`x[:3] if x is not None and isinstance(x, str) else x`. -/
def truncate3 (v : Val) : Val :=
  match v with
  | Val.vStr s => Val.vStr (py_take3 s)
  | _ => v

/-- Column pipeline of `load_data_from_csv` lines 165-167 for the columns
`currency_code` and `code_iso_char` of `ds.md_currency_d`: `astype(str)`,
then sentinel replacement, then truncation to three characters. -/
def md_currency_str_col (col : List Val) : List Val :=
  ((col.map (fun v => Val.vStr (astype_str_cell v))).map replace_sentinel).map truncate3

/-- Fused per-cell form of the three-step column pipeline (maps compose
cell-wise); used to apply the pipeline inside a row-major frame. -/
def md_currency_cell (v : Val) : Val :=
  truncate3 (replace_sentinel (Val.vStr (astype_str_cell v)))

/-- Column assignment `df[name] = df[name].apply(g)` on a row-major frame:
transform the cells of the first column called `name`; no-op when absent
(callers guard on presence as the source does). -/
def apply_to_column (f : Frame) (name : String) (g : Val → Val) : Frame :=
  match f.header.findIdx? (fun c => c = name) with
  | none => f
  | some i =>
      { f with rows := f.rows.map (fun r => r.mapIdx (fun j v => if j = i then g v else v)) }

/-- Currency-table branch of `load_data_from_csv` (lines 160-167): for each
of `currency_code` and `code_iso_char`, when present in the parsed columns
(`if col in df.columns`), run the astype/replace/truncate pipeline. -/
def md_currency_frame (f : Frame) : Frame :=
  let f1 := if f.header.contains "currency_code"
            then apply_to_column f "currency_code" md_currency_cell else f
  if f1.header.contains "code_iso_char"
  then apply_to_column f1 "code_iso_char" md_currency_cell else f1

/-- Table-specific normalization of `load_data_from_csv` (lines 155-167),
after header normalization.  For `ds.ft_balance_f` the source evaluates
`df['on_date']`, which raises `KeyError` when the column is absent — that
is the one normalization failure the source can produce; the currency
branch is total. -/
def normalize_table (table_name : String) (f : Frame) : Except String Frame :=
  if table_name = "ds.ft_balance_f" then
    if f.header.contains "on_date"
    then Except.ok (apply_to_column f "on_date" balance_on_date_cell)
    else Except.error "KeyError: on_date"
  else if table_name = "ds.md_currency_d" then Except.ok (md_currency_frame f)
  else Except.ok f

/-- Per-cell conversion of `load_data_from_csv` line 176:
`None if pd.isna(x) else x`. -/
def na_to_none (x : Val) : Val :=
  if pd_isna x then Val.vNone else x

/-- Row-tuple conversion of `load_data_from_csv` line 176:
`[tuple(None if pd.isna(x) else x for x in row) for row in df.to_numpy()]`. -/
def to_data_tuples (f : Frame) : List (List Val) :=
  f.rows.map (fun r => r.map na_to_none)

/-- Fixed encoding priority list of `read_csv_with_encoding_tries`
(line 118). -/
def encodings : List String := ["utf-8-sig", "cp1251", "latin1", "utf-16-le"]

/-- Outcomes of the external parsing calls made by
`read_csv_with_encoding_tries`: `pd.read_csv(path, sep, encoding)` on the
raw file bytes, `bytes.decode('utf-16-le')`, and
`pd.read_csv(StringIO(decoded), sep)`.  Their behavior lives in pandas and
the codecs; the resolver is verified for every possible behavior of them. -/
structure CsvEnv where
  pd_read_csv : String → String → List Nat → Except String Frame
  utf16_decode : List Nat → Except String String
  pd_read_csv_str : String → String → Except String Frame

/-- Byte-order-mark stripping of lines 125-126: drop a leading `b'\xff\xfe'`
when present. -/
def strip_bom (content : List Nat) : List Nat :=
  if content.take 2 = [255, 254] then content.drop 2 else content

/-- One iteration of the encoding loop (lines 120-136): the `utf-16-le`
attempt reads the raw bytes, strips the BOM, decodes, and parses the decoded
text with separator `;`; every other attempt parses the file directly with
separator `;` and that encoding. -/
def attempt_encoding (env : CsvEnv) (file_bytes : List Nat) (enc : String) :
    Except String Frame :=
  if enc = "utf-16-le" then
    match env.utf16_decode (strip_bom file_bytes) with
    | Except.error e => Except.error e
    | Except.ok decoded => env.pd_read_csv_str ";" decoded
  else env.pd_read_csv ";" enc file_bytes

/-- The `for encoding in encodings: try ... except: continue` loop: first
successful attempt wins; `none` when every attempt raises. -/
def try_encodings (att : String → Except String Frame) :
    List String → Option Frame
  | [] => none
  | e :: rest =>
      match att e with
      | Except.ok df => some df
      | Except.error _ => try_encodings att rest

/-- Python `repr` of the encoding list, as interpolated into the final
f-string `ValueError` message. -/
def py_list_repr (xs : List String) : String :=
  "[" ++ join_comma (xs.map (fun s => "\x27" ++ s ++ "\x27")) ++ "]"

/-- Error message of line 138, with the attempted encodings enumerated. -/
def err_all_encodings (file_path : String) : String :=
  "Не удалось прочитать файл " ++ file_path ++
    " ни с одной из кодировок: " ++ py_list_repr encodings

/-- Embedding of `read_csv_with_encoding_tries` (lines 116-138). -/
def read_csv_with_encoding_tries (env : CsvEnv) (file_path : String)
    (file_bytes : List Nat) : Except String Frame :=
  match try_encodings (attempt_encoding env file_bytes) encodings with
  | some df => Except.ok df
  | none => Except.error (err_all_encodings file_path)

/-- Database and audit events performed by one `load_data_from_csv` call,
in source order.  `logStart` is the committed audit insert of
`log_etl_start`; `truncateExec`/`truncateCommit` are the statement and the
commit inside `execute_sql` for the posting-table TRUNCATE (line 172);
`beginTx` is `cursor.execute("BEGIN;")`; `batchExec` is a successful
`extras.execute_batch` of the built statement over the row tuples;
`txCommit`/`txRollback` are `conn.commit()`/`conn.rollback()`; `logEnd` is
the `log_etl_end` call of the `finally` block. -/
inductive Ev where
  | logStart (table : String) : Ev
  | truncateExec (table : String) : Ev
  | truncateCommit : Ev
  | beginTx : Ev
  | batchExec (query : String) (tuples : List (List Val)) : Ev
  | txCommit : Ev
  | txRollback : Ev
  | logEnd (table : String) (status : String) (records : Nat) (err : Option String) : Ev
deriving DecidableEq, Repr

/-- Outcomes of the fallible external calls made during one
`load_data_from_csv` run: whether the `log_etl_start` insert commits,
the result of `read_csv_with_encoding_tries` (a parsed frame or the raised
message), and the error raised — if any — by the TRUNCATE `execute_sql`,
by `extras.execute_batch`, and by the final `conn.commit()`. -/
structure LoadEnv where
  startOk : Bool
  readResult : Except String Frame
  truncateErr : Option String
  batchErr : Option String
  commitErr : Option String

/-- Embedding of `load_data_from_csv` (lines 140-237): the result
(`records_processed` or the propagated exception) together with the trace
of events, following the source's control flow.  `log_etl_start` precedes
the `try`, so its failure produces no audit record at all; every failure
inside the `try` reaches the `finally`, which emits exactly one `logEnd`
with status `completed` iff no error message was captured, and with the
`records_processed` value current at that point — `0` unless
`execute_batch` finished, the batch-tuple count afterwards (even when the
`conn.commit()` that follows it fails). -/
def load_data_from_csv (env : LoadEnv) (table : String) :
    Except String Nat × List Ev :=
  if env.startOk = false then (Except.error "log_etl_start failed", [])
  else
    match env.readResult with
    | Except.error e =>
        (Except.error e, [Ev.logStart table, Ev.logEnd table "failed" 0 (some e)])
    | Except.ok df0 =>
        match normalize_table table (normalize_header df0) with
        | Except.error e =>
            (Except.error e, [Ev.logStart table, Ev.logEnd table "failed" 0 (some e)])
        | Except.ok df =>
            match (if table = "ds.ft_posting_f" then env.truncateErr else none) with
            | some e =>
                (Except.error e,
                  [Ev.logStart table, Ev.truncateExec table, Ev.txRollback,
                   Ev.logEnd table "failed" 0 (some e)])
            | none =>
                let truncEvs := if table = "ds.ft_posting_f"
                  then [Ev.truncateExec table, Ev.truncateCommit] else []
                let tuples := to_data_tuples df
                let query := insert_query_for table df.header
                match env.batchErr with
                | some e =>
                    (Except.error e,
                      Ev.logStart table :: truncEvs ++
                        [Ev.beginTx, Ev.txRollback, Ev.logEnd table "failed" 0 (some e)])
                | none =>
                    match env.commitErr with
                    | some e =>
                        (Except.error e,
                          Ev.logStart table :: truncEvs ++
                            [Ev.beginTx, Ev.batchExec query tuples, Ev.txRollback,
                             Ev.logEnd table "failed" tuples.length (some e)])
                    | none =>
                        (Except.ok tuples.length,
                          Ev.logStart table :: truncEvs ++
                            [Ev.beginTx, Ev.batchExec query tuples, Ev.txCommit,
                             Ev.logEnd table "completed" tuples.length none])

/-- Driver loop of `main` (lines 270-275): iterate the configured tables in
order; each iteration calls `load_data_from_csv` inside `try/except
Exception: continue`, so no outcome stops the recursion. -/
def run_tables (envOf : String → LoadEnv) :
    List (String × String) → List (String × (Except String Nat × List Ev))
  | [] => []
  | (table_name, _) :: rest =>
      (table_name, load_data_from_csv (envOf table_name) table_name) ::
        run_tables envOf rest

/-- The whole-run pipeline of `main` over the configured mapping. -/
def main_pipeline (envOf : String → LoadEnv) :
    List (String × (Except String Nat × List Ev)) :=
  run_tables envOf TABLE_FILE_MAPPING

/-- Boolean success test on a load result. -/
def except_ok (r : Except String Nat) : Bool :=
  match r with
  | Except.ok _ => true
  | Except.error _ => false

/-- Audit-closing events of a trace. -/
def endEvents (tr : List Ev) : List Ev :=
  tr.filter (fun ev => match ev with | Ev.logEnd _ _ _ _ => true | _ => false)

/-- Boolean failure test on a parse result. -/
def except_frame_err (r : Except String Frame) : Bool :=
  match r with
  | Except.error _ => true
  | Except.ok _ => false

/-- Calendar validity as `parse_ddmmyyyy` enforces it (year bounded by the
four digits `%Y` can match). -/
def ValidDate (y m d : Nat) : Prop :=
  1 ≤ y ∧ y ≤ 9999 ∧ 1 ≤ m ∧ m ≤ 12 ∧ 1 ≤ d ∧ d ≤ daysInMonth y m

/-- A one-column, one-row parsed frame used to instantiate theorems. -/
def okFrame : Frame :=
  { header := ["x"], rows := [[Val.vInt 7]] }

/-- Environment in which every external call succeeds and the file parses
to `okFrame`. -/
def okEnv : LoadEnv :=
  { startOk := true, readResult := Except.ok okFrame,
    truncateErr := none, batchErr := none, commitErr := none }

/-- Environment in which everything succeeds up to and including
`execute_batch`, and then the final `conn.commit()` raises. -/
def commitFailEnv : LoadEnv :=
  { startOk := true, readResult := Except.ok okFrame,
    truncateErr := none, batchErr := none,
    commitErr := some "server closed the connection unexpectedly" }

/-- Parsing environment in which every decode/parse attempt raises. -/
def failCsvEnv : CsvEnv :=
  { pd_read_csv := fun _ _ _ => Except.error "parse error",
    utf16_decode := fun _ => Except.error "decode error",
    pd_read_csv_str := fun _ _ => Except.error "parse error" }

/-- Claim C1: for every assignment of per-table outcomes (any mix of
unreadable files, normalization failures, truncate/batch/commit errors, or
success), the driver loop of `main` performs one `load_data_from_csv`
attempt per configured table, in the fixed configured order — no failure
short-circuits the iteration. -/
theorem main_attempts_all_tables (envOf : String → LoadEnv) :
    main_pipeline envOf =
      TABLE_FILE_MAPPING.map
        (fun p => (p.1, load_data_from_csv (envOf p.1) p.1)) ∧
    (main_pipeline envOf).map Prod.fst =
      ["ds.ft_balance_f", "ds.ft_posting_f", "ds.md_account_d",
       "ds.md_currency_d", "ds.md_exchange_rate_d", "ds.md_ledger_account_s"] :=
  ⟨rfl, rfl⟩

/-- Claim C2: a table with a declared non-empty primary-key list gets the
parameterized insert over all parsed columns followed by an `ON CONFLICT`
clause keyed exactly on the declared keys, assigning every non-key column
to its `EXCLUDED` value; a table whose `PRIMARY_KEYS` entry is `None` (the
posting-fact table) or absent gets the plain insert with no conflict
clause. -/
theorem upsert_plan_conflict_clause (table_name : String) (columns : List String) :
    (∀ pks, dict_get PRIMARY_KEYS table_name = some (some pks) → pks ≠ [] →
      insert_query_for table_name columns =
        plain_insert table_name columns ++ on_conflict_clause pks columns) ∧
    (dict_get PRIMARY_KEYS table_name = some none ∨
        dict_get PRIMARY_KEYS table_name = none →
      insert_query_for table_name columns = plain_insert table_name columns) ∧
    insert_query_for "ds.ft_posting_f" columns =
      plain_insert "ds.ft_posting_f" columns := by
  refine ⟨?_, ?_, ?_⟩
  · intro pks hget hne
    have hemp : pks.isEmpty = false := by
      cases pks
      · exact absurd rfl hne
      · rfl
    simp [insert_query_for, hget, hemp]
  · intro h
    rcases h with h | h <;> simp [insert_query_for, h]
  · have hget : dict_get PRIMARY_KEYS "ds.ft_posting_f" = some none := by decide
    simp [insert_query_for, hget]

/-- Witness for C2 at the balance-fact configuration with a concrete parsed
column list. -/
theorem upsert_plan_conflict_clause_witness :
    insert_query_for "ds.ft_balance_f" ["on_date", "account_rk", "balance_out"] =
      plain_insert "ds.ft_balance_f" ["on_date", "account_rk", "balance_out"] ++
        on_conflict_clause ["on_date", "account_rk"]
          ["on_date", "account_rk", "balance_out"] :=
  (upsert_plan_conflict_clause "ds.ft_balance_f"
      ["on_date", "account_rk", "balance_out"]).1
    ["on_date", "account_rk"] (by decide) (by decide)

/-- Claim C9: when every parsed column is among the declared primary-key
columns, the generated statement still carries the `ON CONFLICT ... DO
UPDATE SET` clause, its assignment list is empty, and the result is not the
plain insert. -/
theorem upsert_all_key_columns_empty_update (table_name : String)
    (columns pks : List String)
    (hget : dict_get PRIMARY_KEYS table_name = some (some pks))
    (hne : pks ≠ [])
    (hsub : ∀ c ∈ columns, pks.contains c = true) :
    insert_query_for table_name columns =
      plain_insert table_name columns ++ on_conflict_clause pks columns ∧
    (columns.filter (fun c => !(pks.contains c))).map
        (fun c => quote_col c ++ " = EXCLUDED." ++ quote_col c) = [] ∧
    on_conflict_clause pks columns =
      "\n            ON CONFLICT (" ++ join_comma (pks.map quote_col) ++
        ") \n            DO UPDATE SET \n            " ∧
    insert_query_for table_name columns ≠ plain_insert table_name columns := by
  have hemp : pks.isEmpty = false := by
    cases pks
    · exact absurd rfl hne
    · rfl
  have hq : insert_query_for table_name columns =
      plain_insert table_name columns ++ on_conflict_clause pks columns := by
    simp [insert_query_for, hget, hemp]
  have hfil : columns.filter (fun c => !(pks.contains c)) = [] := by
    refine List.filter_eq_nil_iff.mpr ?_
    intro c hc
    rw [hsub c hc]
    decide
  have hclause : on_conflict_clause pks columns =
      "\n            ON CONFLICT (" ++ join_comma (pks.map quote_col) ++
        ") \n            DO UPDATE SET \n            " := by
    simp only [on_conflict_clause]
    rw [hfil]
    simp only [List.map_nil]
    have h1 : join_comma ([] : List String) = "" := rfl
    rw [h1]
    simp only [String.append_assoc]
    congr 2
  refine ⟨hq, by rw [hfil]; rfl, hclause, ?_⟩
  intro heq
  rw [hq] at heq
  have hlen := congrArg String.length heq
  rw [String.length_append] at hlen
  have h1 : 0 < (on_conflict_clause pks columns).length := by
    rw [hclause]
    rw [String.length_append, String.length_append]
    have : 0 < ("\n            ON CONFLICT (" : String).length := by decide
    omega
  omega

/-- Witness for C9: the balance-fact key configuration with a parsed column
list consisting exactly of the two key columns. -/
theorem upsert_all_key_columns_empty_update_witness :
    insert_query_for "ds.ft_balance_f" ["on_date", "account_rk"] =
      plain_insert "ds.ft_balance_f" ["on_date", "account_rk"] ++
        on_conflict_clause ["on_date", "account_rk"] ["on_date", "account_rk"] ∧
    (["on_date", "account_rk"].filter
        (fun c => !(["on_date", "account_rk"].contains c))).map
        (fun c => quote_col c ++ " = EXCLUDED." ++ quote_col c) = [] ∧
    on_conflict_clause ["on_date", "account_rk"] ["on_date", "account_rk"] =
      "\n            ON CONFLICT (" ++
        join_comma (["on_date", "account_rk"].map quote_col) ++
        ") \n            DO UPDATE SET \n            " ∧
    insert_query_for "ds.ft_balance_f" ["on_date", "account_rk"] ≠
      plain_insert "ds.ft_balance_f" ["on_date", "account_rk"] :=
  upsert_all_key_columns_empty_update "ds.ft_balance_f"
    ["on_date", "account_rk"] ["on_date", "account_rk"]
    (by decide) (by decide) (by decide)

/-- Claim C10: converting normalized rows to parameter tuples maps every
NA/NaN cell to null and passes every non-NA cell through unchanged, so no
missing-value object other than null reaches the database driver. -/
theorem data_tuples_na_to_none (f : Frame) :
    to_data_tuples f = f.rows.map (fun r => r.map na_to_none) ∧
    (∀ x : Val, (pd_isna x = true → na_to_none x = Val.vNone) ∧
      (pd_isna x = false → na_to_none x = x)) ∧
    (∀ r ∈ to_data_tuples f, ∀ v ∈ r, v = Val.vNone ∨ pd_isna v = false) := by
  refine ⟨rfl, ?_, ?_⟩
  · intro x
    constructor <;> intro h <;> simp [na_to_none, h]
  · intro r hr v hv
    simp only [to_data_tuples, List.mem_map] at hr
    obtain ⟨r0, _, rfl⟩ := hr
    simp only [List.mem_map] at hv
    obtain ⟨x, _, rfl⟩ := hv
    cases hx : pd_isna x
    · right
      simp [na_to_none, hx]
    · left
      simp [na_to_none, hx]

/-- Witness for C10 on concrete cells. -/
theorem data_tuples_na_to_none_witness :
    na_to_none Val.vNaN = Val.vNone ∧ na_to_none (Val.vInt 3) = Val.vInt 3 :=
  ⟨((data_tuples_na_to_none { header := [], rows := [] }).2.1 Val.vNaN).1 rfl,
   ((data_tuples_na_to_none { header := [], rows := [] }).2.1 (Val.vInt 3)).2 rfl⟩

/-- Claim C3: whenever the attempt's audit record was created (the
`log_etl_start` insert committed), the trace contains exactly one
`log_etl_end` call for it, with status `completed` iff the load returned
without error and `failed` otherwise — regardless of where parsing,
normalization, truncation, batching, or commit failed. -/
theorem load_logEnd_exactly_once (env : LoadEnv) (table : String)
    (h : env.startOk = true) :
    ∃ n e, endEvents (load_data_from_csv env table).2 =
        [Ev.logEnd table (if e = none then "completed" else "failed") n e] ∧
      (except_ok (load_data_from_csv env table).1 = true ↔ e = none) := by
  obtain ⟨st, rR, tE, bE, cE⟩ := env
  subst h
  rcases rR with e | df0
  · exact ⟨0, some e, by simp [load_data_from_csv, endEvents],
      by simp [load_data_from_csv, except_ok]⟩
  · by_cases hp : table = "ds.ft_posting_f"
    · subst hp
      rcases hN : normalize_table "ds.ft_posting_f" (normalize_header df0) with e | df
      · exact ⟨0, some e, by simp [load_data_from_csv, hN, endEvents],
          by simp [load_data_from_csv, hN, except_ok]⟩
      · rcases tE with _ | e
        · rcases bE with _ | e
          · rcases cE with _ | e
            · exact ⟨(to_data_tuples df).length, none,
                by simp [load_data_from_csv, hN, endEvents],
                by simp [load_data_from_csv, hN, except_ok]⟩
            · exact ⟨(to_data_tuples df).length, some e,
                by simp [load_data_from_csv, hN, endEvents],
                by simp [load_data_from_csv, hN, except_ok]⟩
          · exact ⟨0, some e, by simp [load_data_from_csv, hN, endEvents],
              by simp [load_data_from_csv, hN, except_ok]⟩
        · exact ⟨0, some e, by simp [load_data_from_csv, hN, endEvents],
            by simp [load_data_from_csv, hN, except_ok]⟩
    · rcases hN : normalize_table table (normalize_header df0) with e | df
      · exact ⟨0, some e, by simp [load_data_from_csv, hN, endEvents],
          by simp [load_data_from_csv, hN, except_ok]⟩
      · rcases bE with _ | e
        · rcases cE with _ | e
          · exact ⟨(to_data_tuples df).length, none,
              by simp [load_data_from_csv, hN, hp, endEvents],
              by simp [load_data_from_csv, hN, hp, except_ok]⟩
          · exact ⟨(to_data_tuples df).length, some e,
              by simp [load_data_from_csv, hN, hp, endEvents],
              by simp [load_data_from_csv, hN, hp, except_ok]⟩
        · exact ⟨0, some e, by simp [load_data_from_csv, hN, hp, endEvents],
            by simp [load_data_from_csv, hN, hp, except_ok]⟩

/-- Witness for C3: the all-success environment on `ds.md_account_d`. -/
theorem load_logEnd_exactly_once_witness :
    ∃ n e, endEvents (load_data_from_csv okEnv "ds.md_account_d").2 =
        [Ev.logEnd "ds.md_account_d"
          (if e = none then "completed" else "failed") n e] ∧
      (except_ok (load_data_from_csv okEnv "ds.md_account_d").1 = true ↔
        e = none) :=
  load_logEnd_exactly_once okEnv "ds.md_account_d" rfl

/-- Claim C4 (amended): the rows-processed value written to the audit
record equals the size of a batch that `execute_batch` actually executed
whenever it is nonzero or the status is `completed`; it is `0` whenever the
failure occurred before batch execution; status `completed` additionally
requires the transaction commit.  (A failure in `conn.commit()` itself
yields a `failed` record that still carries the batched row count — see the
counterexample to the claim as originally stated.) -/
theorem load_records_reflect_batch (env : LoadEnv) (table : String)
    (h : env.startOk = true) :
    ∀ s n e, Ev.logEnd table s n e ∈ (load_data_from_csv env table).2 →
      ((s = "completed") ↔ e = none) ∧
      (s = "completed" →
        Ev.txCommit ∈ (load_data_from_csv env table).2 ∧
        ∃ q tup, Ev.batchExec q tup ∈ (load_data_from_csv env table).2 ∧
          n = tup.length) ∧
      (n ≠ 0 →
        ∃ q tup, Ev.batchExec q tup ∈ (load_data_from_csv env table).2 ∧
          n = tup.length) := by
  obtain ⟨st, rR, tE, bE, cE⟩ := env
  subst h
  intro s n e hmem
  rcases rR with e0 | df0
  · simp [load_data_from_csv] at hmem
    obtain ⟨hs, hn, he⟩ := hmem
    subst hs; subst hn; subst he
    exact ⟨by simp, fun hc => absurd hc (by decide), fun hc => absurd rfl hc⟩
  · by_cases hp : table = "ds.ft_posting_f"
    · subst hp
      rcases hN : normalize_table "ds.ft_posting_f" (normalize_header df0) with e0 | df
      · simp [load_data_from_csv, hN] at hmem
        obtain ⟨hs, hn, he⟩ := hmem
        subst hs; subst hn; subst he
        exact ⟨by simp, fun hc => absurd hc (by decide), fun hc => absurd rfl hc⟩
      · rcases tE with _ | e0
        · rcases bE with _ | e0
          · rcases cE with _ | e0
            · simp [load_data_from_csv, hN] at hmem
              obtain ⟨hs, hn, he⟩ := hmem
              subst hs; subst hn; subst he
              refine ⟨by simp, fun _ => ⟨by simp [load_data_from_csv, hN],
                ?_⟩, fun _ => ?_⟩
              · exact ⟨insert_query_for "ds.ft_posting_f" df.header,
                  to_data_tuples df,
                  by simp [load_data_from_csv, hN], rfl⟩
              · exact ⟨insert_query_for "ds.ft_posting_f" df.header,
                  to_data_tuples df,
                  by simp [load_data_from_csv, hN], rfl⟩
            · simp [load_data_from_csv, hN] at hmem
              obtain ⟨hs, hn, he⟩ := hmem
              subst hs; subst hn; subst he
              refine ⟨by simp, fun hc => absurd hc (by decide), fun _ => ?_⟩
              exact ⟨insert_query_for "ds.ft_posting_f" df.header,
                to_data_tuples df,
                by simp [load_data_from_csv, hN], rfl⟩
          · simp [load_data_from_csv, hN] at hmem
            obtain ⟨hs, hn, he⟩ := hmem
            subst hs; subst hn; subst he
            exact ⟨by simp, fun hc => absurd hc (by decide),
              fun hc => absurd rfl hc⟩
        · simp [load_data_from_csv, hN] at hmem
          obtain ⟨hs, hn, he⟩ := hmem
          subst hs; subst hn; subst he
          exact ⟨by simp, fun hc => absurd hc (by decide),
            fun hc => absurd rfl hc⟩
    · rcases hN : normalize_table table (normalize_header df0) with e0 | df
      · simp [load_data_from_csv, hN] at hmem
        obtain ⟨hs, hn, he⟩ := hmem
        subst hs; subst hn; subst he
        exact ⟨by simp, fun hc => absurd hc (by decide), fun hc => absurd rfl hc⟩
      · rcases bE with _ | e0
        · rcases cE with _ | e0
          · simp [load_data_from_csv, hN, hp] at hmem
            obtain ⟨hs, hn, he⟩ := hmem
            subst hs; subst hn; subst he
            refine ⟨by simp, fun _ => ⟨by simp [load_data_from_csv, hN, hp],
              ?_⟩, fun _ => ?_⟩
            · exact ⟨insert_query_for table df.header, to_data_tuples df,
                by simp [load_data_from_csv, hN, hp], rfl⟩
            · exact ⟨insert_query_for table df.header, to_data_tuples df,
                by simp [load_data_from_csv, hN, hp], rfl⟩
          · simp [load_data_from_csv, hN, hp] at hmem
            obtain ⟨hs, hn, he⟩ := hmem
            subst hs; subst hn; subst he
            refine ⟨by simp, fun hc => absurd hc (by decide), fun _ => ?_⟩
            exact ⟨insert_query_for table df.header, to_data_tuples df,
              by simp [load_data_from_csv, hN, hp], rfl⟩
        · simp [load_data_from_csv, hN, hp] at hmem
          obtain ⟨hs, hn, he⟩ := hmem
          subst hs; subst hn; subst he
          exact ⟨by simp, fun hc => absurd hc (by decide),
            fun hc => absurd rfl hc⟩

/-- Counterexample to claim C4 as stated: when `execute_batch` succeeds and
the `conn.commit()` that follows it raises, nothing was committed, yet the
audit record ends `failed` with the batched row count 1, not 0 —
`records_processed = len(data_tuples)` is assigned on line 213, before the
commit on line 214. -/
theorem records_failed_nonzero_cex :
    Ev.logEnd "ds.md_exchange_rate_d" "failed" 1
        (some "server closed the connection unexpectedly") ∈
      (load_data_from_csv commitFailEnv "ds.md_exchange_rate_d").2 ∧
    (1 : Nat) ≠ 0 := by
  constructor
  · decide
  · decide

/-- Witness for the amended C4: the all-success environment, whose audit
record is `completed` with the batched row count. -/
theorem load_records_reflect_batch_witness :
    ((("completed" : String) = "completed") ↔ ((none : Option String) = none)) ∧
    (("completed" : String) = "completed" →
      Ev.txCommit ∈ (load_data_from_csv okEnv "ds.md_account_d").2 ∧
      ∃ q tup,
        Ev.batchExec q tup ∈ (load_data_from_csv okEnv "ds.md_account_d").2 ∧
        (1 : Nat) = tup.length) ∧
    ((1 : Nat) ≠ 0 →
      ∃ q tup,
        Ev.batchExec q tup ∈ (load_data_from_csv okEnv "ds.md_account_d").2 ∧
        (1 : Nat) = tup.length) :=
  load_records_reflect_batch okEnv "ds.md_account_d" rfl "completed" 1 none
    (by decide)

/-- Claim C8: a TRUNCATE is issued only for `ds.ft_posting_f`, and when the
posting-fact load reaches it (file read succeeded, truncate succeeded), it
is executed and committed as its own unit strictly before the `BEGIN` of
the batch-insert transaction; loads of every other table never emit a
truncate event. -/
theorem truncate_only_for_posting (env : LoadEnv) (table : String) :
    (∀ t, Ev.truncateExec t ∈ (load_data_from_csv env table).2 →
      table = "ds.ft_posting_f" ∧ t = table) ∧
    (table = "ds.ft_posting_f" → env.startOk = true →
      ∀ df, env.readResult = Except.ok df → env.truncateErr = none →
      ∃ rest, (load_data_from_csv env table).2 =
        Ev.logStart table :: Ev.truncateExec table :: Ev.truncateCommit ::
          Ev.beginTx :: rest) := by
  obtain ⟨st, rR, tE, bE, cE⟩ := env
  constructor
  · intro t hmem
    rcases st with _ | _
    · simp [load_data_from_csv] at hmem
    · rcases rR with e0 | df0
      · simp [load_data_from_csv] at hmem
      · by_cases hp : table = "ds.ft_posting_f"
        · subst hp
          rcases hN : normalize_table "ds.ft_posting_f" (normalize_header df0)
            with e0 | df
          · simp [load_data_from_csv, hN] at hmem
          · rcases tE with _ | e0
            · rcases bE with _ | e0
              · rcases cE with _ | e0 <;>
                  simp [load_data_from_csv, hN] at hmem <;>
                  exact ⟨rfl, hmem⟩
              · simp [load_data_from_csv, hN] at hmem
                exact ⟨rfl, hmem⟩
            · simp [load_data_from_csv, hN] at hmem
              exact ⟨rfl, hmem⟩
        · rcases hN : normalize_table table (normalize_header df0) with e0 | df
          · simp [load_data_from_csv, hN] at hmem
          · rcases bE with _ | e0
            · rcases cE with _ | e0 <;>
                simp [load_data_from_csv, hN, hp] at hmem
            · simp [load_data_from_csv, hN, hp] at hmem
  · intro hp hst df hr htr
    subst hp
    subst hst
    subst hr
    subst htr
    have hok : normalize_table "ds.ft_posting_f" (normalize_header df) =
        Except.ok (normalize_header df) := rfl
    rcases bE with _ | e0
    · rcases cE with _ | e0
      · exact ⟨_, rfl⟩
      · exact ⟨_, rfl⟩
    · exact ⟨_, rfl⟩

/-- Witness for C8: a successful posting-fact load. -/
theorem truncate_only_for_posting_witness :
    ∃ rest, (load_data_from_csv okEnv "ds.ft_posting_f").2 =
      Ev.logStart "ds.ft_posting_f" :: Ev.truncateExec "ds.ft_posting_f" ::
        Ev.truncateCommit :: Ev.beginTx :: rest :=
  (truncate_only_for_posting okEnv "ds.ft_posting_f").2 rfl rfl okFrame rfl rfl

/-- A successful `try_encodings` run is the first success: the list splits
as attempts that raised, then the winning attempt. -/
theorem try_encodings_some (att : String → Except String Frame) :
    ∀ (l : List String) (df : Frame), try_encodings att l = some df →
      ∃ pre e post, l = pre ++ e :: post ∧ att e = Except.ok df ∧
        ∀ e2 ∈ pre, except_frame_err (att e2) = true := by
  intro l
  induction l with
  | nil => intro df h; simp [try_encodings] at h
  | cons e rest ih =>
      intro df h
      rcases ha : att e with e0 | df0
      · simp only [try_encodings, ha] at h
        obtain ⟨pre, e1, post, hl, hok, herr⟩ := ih df h
        refine ⟨e :: pre, e1, post, by rw [hl]; rfl, hok, ?_⟩
        intro e2 he2
        rcases List.mem_cons.mp he2 with h2 | h2
        · subst h2
          simp [except_frame_err, ha]
        · exact herr e2 h2
      · simp only [try_encodings, ha, Option.some.injEq] at h
        subst h
        exact ⟨[], e, rest, rfl, ha, by intro e2 he2; simp at he2⟩

/-- When every attempt raises, `try_encodings` exhausts the list. -/
theorem try_encodings_none (att : String → Except String Frame) :
    ∀ (l : List String), (∀ e ∈ l, except_frame_err (att e) = true) →
      try_encodings att l = none := by
  intro l
  induction l with
  | nil => intro _; rfl
  | cons e rest ih =>
      intro hall
      have he : except_frame_err (att e) = true := hall e (by simp)
      rcases ha : att e with e0 | df0
      · simp only [try_encodings, ha]
        exact ih (fun e2 h2 => hall e2 (by simp [h2]))
      · rw [ha] at he
        simp [except_frame_err] at he

/-- An infix of a list stays an infix after extending on the left. -/
theorem isInfix_append_left {α : Type} (X : List α) {e R : List α}
    (h : List.IsInfix e R) : List.IsInfix e (X ++ R) := by
  obtain ⟨s, t, hst⟩ := h
  refine ⟨X ++ s, t, ?_⟩
  rw [← hst]
  simp [List.append_assoc]

/-- Claim C5: the resolver tries `utf-8-sig`, `cp1251`, `latin1`,
`utf-16-le` in that fixed order (the `utf-16-le` attempt stripping a
leading BOM before decoding, every other attempt parsing the raw file with
separator `;`), returns the first attempt that does not raise, and when all
four raise it fails with the message that enumerates all four attempted
encodings. -/
theorem encoding_tries_first_success (env : CsvEnv) (fp : String)
    (bytes : List Nat) :
    (∀ df, read_csv_with_encoding_tries env fp bytes = Except.ok df →
      ∃ pre e post, encodings = pre ++ e :: post ∧
        attempt_encoding env bytes e = Except.ok df ∧
        ∀ e2 ∈ pre, except_frame_err (attempt_encoding env bytes e2) = true) ∧
    ((∀ e ∈ encodings,
        except_frame_err (attempt_encoding env bytes e) = true) →
      read_csv_with_encoding_tries env fp bytes =
        Except.error (err_all_encodings fp) ∧
      ∀ e ∈ encodings, List.IsInfix e.data (err_all_encodings fp).data) ∧
    (bytes.take 2 = [255, 254] → strip_bom bytes = bytes.drop 2) ∧
    (bytes.take 2 ≠ [255, 254] → strip_bom bytes = bytes) ∧
    (∀ e, e ≠ "utf-16-le" →
      attempt_encoding env bytes e = env.pd_read_csv ";" e bytes) := by
  refine ⟨?_, ?_, ?_, ?_, ?_⟩
  · intro df h
    unfold read_csv_with_encoding_tries at h
    rcases ht : try_encodings (attempt_encoding env bytes) encodings with _ | df0
    · rw [ht] at h
      simp at h
    · rw [ht] at h
      simp only [Except.ok.injEq] at h
      subst h
      exact try_encodings_some _ encodings df0 ht
  · intro hall
    have hn := try_encodings_none (attempt_encoding env bytes) encodings hall
    constructor
    · unfold read_csv_with_encoding_tries
      rw [hn]
    · intro e he
      have hsub : List.IsInfix e.data (py_list_repr encodings).data := by
        fin_cases he <;> decide
      have hstruct : (err_all_encodings fp).data =
          (("Не удалось прочитать файл ".data ++ fp.data) ++
            " ни с одной из кодировок: ".data) ++
            (py_list_repr encodings).data := by
        simp [err_all_encodings, String.data_append]
      rw [hstruct]
      exact isInfix_append_left _ hsub
  · intro h
    unfold strip_bom
    rw [if_pos h]
  · intro h
    unfold strip_bom
    rw [if_neg h]
  · intro e he
    unfold attempt_encoding
    rw [if_neg he]

/-- Witness for C5: a file parseable in no encoding, with a BOM. -/
theorem encoding_tries_first_success_witness :
    read_csv_with_encoding_tries failCsvEnv "data.csv" [255, 254, 48] =
      Except.error (err_all_encodings "data.csv") ∧
    List.IsInfix ("cp1251" : String).data (err_all_encodings "data.csv").data ∧
    strip_bom [255, 254, 48] = [48] := by
  have h := encoding_tries_first_success failCsvEnv "data.csv" [255, 254, 48]
  have hall : ∀ e ∈ encodings,
      except_frame_err (attempt_encoding failCsvEnv [255, 254, 48] e) = true := by
    decide
  exact ⟨(h.2.1 hall).1, (h.2.1 hall).2 "cp1251" (by decide),
    h.2.2.1 (by decide)⟩

/-- The scanner splits its input: consumed digits plus remainder. -/
theorem spanDigits_append : ∀ (k : Nat) (cs : List Char),
    (spanDigits k cs).1 ++ (spanDigits k cs).2 = cs := by
  intro k cs
  induction cs generalizing k with
  | nil => cases k <;> rfl
  | cons c rest ih =>
      cases k with
      | zero => rfl
      | succ k =>
          by_cases hd : py_isdigit c = true
          · simp [spanDigits, hd, ih k]
          · simp [spanDigits, hd]

/-- The scanner only consumes ASCII digits. -/
theorem spanDigits_digits : ∀ (k : Nat) (cs : List Char) (c : Char),
    c ∈ (spanDigits k cs).1 → py_isdigit c = true := by
  intro k cs
  induction cs generalizing k with
  | nil =>
      intro c hc
      cases k <;> simp [spanDigits] at hc
  | cons c0 rest ih =>
      intro c hc
      cases k with
      | zero => simp [spanDigits] at hc
      | succ k =>
          by_cases hd : py_isdigit c0 = true
          · simp [spanDigits, hd] at hc
            rcases hc with rfl | hc
            · exact hd
            · exact ih k c hc
          · simp [spanDigits, hd] at hc

/-- The scanner consumes at most `k` characters. -/
theorem spanDigits_length : ∀ (k : Nat) (cs : List Char),
    (spanDigits k cs).1.length ≤ k := by
  intro k cs
  induction cs generalizing k with
  | nil => cases k <;> simp [spanDigits]
  | cons c rest ih =>
      cases k with
      | zero => simp [spanDigits]
      | succ k =>
          by_cases hd : py_isdigit c = true
          · simp [spanDigits, hd]
            exact ih k
          · simp [spanDigits, hd]

/-- Accumulator bound for the decimal fold over digit characters. -/
theorem foldl_digits_lt : ∀ (cs : List Char) (a : Nat),
    (∀ c ∈ cs, py_isdigit c = true) →
    List.foldl (fun a c => a * 10 + (c.toNat - 48)) a cs <
      (a + 1) * 10 ^ cs.length := by
  intro cs
  induction cs with
  | nil => intro a _; simp
  | cons c rest ih =>
      intro a hall
      have hc : py_isdigit c = true := hall c (by simp)
      have hd9 : c.toNat - 48 ≤ 9 := by
        simp [py_isdigit, Bool.and_eq_true, decide_eq_true_eq] at hc
        omega
      have h1 := ih (a * 10 + (c.toNat - 48)) (fun c2 h2 => hall c2 (by simp [h2]))
      have h2 : (a * 10 + (c.toNat - 48) + 1) * 10 ^ rest.length ≤
          (a + 1) * 10 ^ (rest.length + 1) := by
        have hstep : a * 10 + (c.toNat - 48) + 1 ≤ (a + 1) * 10 := by omega
        calc (a * 10 + (c.toNat - 48) + 1) * 10 ^ rest.length
            ≤ ((a + 1) * 10) * 10 ^ rest.length := Nat.mul_le_mul_right _ hstep
          _ = (a + 1) * 10 ^ (rest.length + 1) := by ring
      simp only [List.foldl_cons, List.length_cons]
      exact lt_of_lt_of_le h1 h2

/-- A digit string of length `n` denotes a value below `10 ^ n`. -/
theorem digitsVal_lt_pow (cs : List Char)
    (h : ∀ c ∈ cs, py_isdigit c = true) : digitsVal cs < 10 ^ cs.length := by
  have := foldl_digits_lt cs 0 h
  simpa [digitsVal] using this

/-- Decimal digit characters are never the dot. -/
theorem digitChar_ne_dot (n : Nat) : digitChar n ≠ ('.' : Char) := by
  unfold digitChar
  split <;> decide

/-- The ISO rendering contains no dot character. -/
theorem formatISO_no_dot (y m d : Nat) : ('.' : Char) ∉ (formatISO y m d).data := by
  intro h
  have hform : (formatISO y m d).data =
      [digitChar (y / 1000), digitChar (y / 100), digitChar (y / 10), digitChar y,
       '-', digitChar (m / 10), digitChar m, '-', digitChar (d / 10), digitChar d] := rfl
  rw [hform] at h
  simp only [List.mem_cons, List.not_mem_nil, or_false] at h
  rcases h with h|h|h|h|h|h|h|h|h|h
  all_goals first
    | exact digitChar_ne_dot _ h.symm
    | exact absurd h (by decide)

/-- A string accepted by the `%d.%m.%Y` parser contains a literal dot. -/
theorem parse_some_dot (s : String) (x : Nat × Nat × Nat)
    (h : parse_ddmmyyyy s = some x) : ('.' : Char) ∈ s.data := by
  simp only [parse_ddmmyyyy] at h
  split at h
  · exact absurd h (by simp)
  · split at h
    · rename_i r2 heq
      have hsp := spanDigits_append 2 s.data
      rw [heq] at hsp
      rw [← hsp]
      exact List.mem_append_right _ (List.mem_cons_self _ _)
    · exact absurd h (by simp)

/-- A triple accepted by the `%d.%m.%Y` parser is a valid calendar date
with a four-digit-representable year. -/
theorem parse_some_valid (s : String) (d m y : Nat)
    (h : parse_ddmmyyyy s = some (d, m, y)) : ValidDate y m d := by
  simp only [parse_ddmmyyyy] at h
  split at h
  · exact absurd h (by simp)
  · split at h
    · rename_i r2 heq2
      split at h
      · exact absurd h (by simp)
      · split at h
        · rename_i r4 heq4
          split at h
          · exact absurd h (by simp)
          · split at h
            · rename_i hg
              simp only [Option.some.injEq, Prod.mk.injEq] at h
              obtain ⟨rfl, rfl, rfl⟩ := h
              simp only [Bool.and_eq_true, decide_eq_true_eq] at hg
              obtain ⟨⟨⟨⟨hy1, hm1⟩, hm12⟩, hd1⟩, hdm⟩ := hg
              refine ⟨hy1, ?_, hm1, hm12, hd1, hdm⟩
              have hdig : ∀ c ∈ (spanDigits 4 r4).1, py_isdigit c = true :=
                fun c hc => spanDigits_digits 4 r4 c hc
              have hlt := digitsVal_lt_pow (spanDigits 4 r4).1 hdig
              have hlen := spanDigits_length 4 r4
              have hle : (10 : Nat) ^ (spanDigits 4 r4).1.length ≤ 10 ^ 4 :=
                Nat.pow_le_pow_right (by omega) hlen
              omega
            · exact absurd h (by simp)
        · exact absurd h (by simp)
    · exact absurd h (by simp)

/-- Claim C6: every normalized `on_date` cell of the balance-fact table is
either null (NaN) or the ISO `year-month-day` rendering of a valid
calendar date; an unparseable cell coerces to null rather than raising
(the transform is total); and the output string is never the original
`day.month.year` string. -/
theorem balance_on_date_iso_or_null (v : Val) :
    (balance_on_date_cell v = Val.vNaN ∨
      ∃ y m d, ValidDate y m d ∧
        balance_on_date_cell v = Val.vStr (formatISO y m d)) ∧
    (∀ s, v = Val.vStr s → parse_ddmmyyyy s = none →
      balance_on_date_cell v = Val.vNaN) ∧
    (∀ s, v = Val.vStr s → balance_on_date_cell v ≠ Val.vStr s) := by
  refine ⟨?_, ?_, ?_⟩
  · cases v with
    | vStr s =>
        rcases hp : parse_ddmmyyyy s with _ | x
        · left
          simp [balance_on_date_cell, hp]
        · obtain ⟨d, m, y⟩ := x
          right
          exact ⟨y, m, d, parse_some_valid s d m y hp,
            by simp [balance_on_date_cell, hp]⟩
    | vNaN => left; rfl
    | vNone => left; rfl
    | vNA => left; rfl
    | vInt n => left; rfl
  · intro s hv hp
    subst hv
    simp [balance_on_date_cell, hp]
  · intro s hv heq
    subst hv
    rcases hp : parse_ddmmyyyy s with _ | x
    · simp [balance_on_date_cell, hp] at heq
    · obtain ⟨d, m, y⟩ := x
      simp only [balance_on_date_cell, hp, Val.vStr.injEq] at heq
      have hdot : ('.' : Char) ∈ s.data := parse_some_dot s (d, m, y) hp
      rw [← heq] at hdot
      exact formatISO_no_dot y m d hdot

/-- Witness for C6: a parseable and an unparseable concrete date. -/
theorem balance_on_date_iso_or_null_witness :
    balance_on_date_cell (Val.vStr "31.12.2024") ≠ Val.vStr "31.12.2024" ∧
    balance_on_date_cell (Val.vStr "99.99.9999") = Val.vNaN :=
  ⟨(balance_on_date_iso_or_null (Val.vStr "31.12.2024")).2.2 "31.12.2024" rfl,
   (balance_on_date_iso_or_null (Val.vStr "99.99.9999")).2.1 "99.99.9999" rfl
     (by decide)⟩

/-- The three column-wise steps fuse to the per-cell pipeline. -/
theorem md_currency_col_map (col : List Val) :
    md_currency_str_col col = col.map md_currency_cell := by
  simp [md_currency_str_col, md_currency_cell, List.map_map, Function.comp]

/-- Closed form of the per-cell pipeline: a cell whose string rendering is
a sentinel becomes null; any other cell becomes its rendering truncated to
three code points. -/
theorem md_currency_cell_eq (v : Val) :
    md_currency_cell v =
      if sentinels.contains (astype_str_cell v) then Val.vNone
      else Val.vStr (py_take3 (astype_str_cell v)) := by
  by_cases hc : astype_str_cell v ∈ sentinels
  · simp [md_currency_cell, replace_sentinel, truncate3, hc]
  · simp [md_currency_cell, replace_sentinel, truncate3, hc]

/-- Claim C7 (amended): after the currency-column pipeline every value is
null or a string of at most 3 code points, and the sentinels `None` and
`<NA>` never appear as literal values; the sentinel `nan`, however, can
appear — exactly as the 3-character truncation of a non-sentinel input
rendering longer than 3 characters that starts with `nan` (a cell whose
rendering equals a sentinel is always mapped to null). -/
theorem currency_str_col_normalized (col : List Val) :
    (md_currency_str_col col).length = col.length ∧
    ∀ i (hi : i < (md_currency_str_col col).length),
      ((md_currency_str_col col)[i] = Val.vNone ∨
        ∃ s, (md_currency_str_col col)[i] = Val.vStr s ∧ s.length ≤ 3) ∧
      (∀ s, (md_currency_str_col col)[i] = Val.vStr s →
        s ≠ "None" ∧ s ≠ "<NA>") ∧
      ((md_currency_str_col col)[i] = Val.vStr "nan" →
        ∃ hi2 : i < col.length,
          3 < (astype_str_cell col[i]).length ∧
          py_take3 (astype_str_cell col[i]) = "nan") := by
  have hlen : (md_currency_str_col col).length = col.length := by
    simp [md_currency_col_map]
  refine ⟨hlen, ?_⟩
  intro i hi
  have hi2 : i < col.length := by
    rw [← hlen]
    exact hi
  have hget : (md_currency_str_col col)[i] = md_currency_cell col[i] := by
    simp [md_currency_col_map]
  rw [hget, md_currency_cell_eq]
  by_cases hs : sentinels.contains (astype_str_cell col[i]) = true
  · rw [if_pos hs]
    refine ⟨Or.inl rfl, ?_, ?_⟩
    · intro s hx
      simp at hx
    · intro hx
      simp at hx
  · rw [if_neg hs]
    have hlen3 : (py_take3 (astype_str_cell col[i])).length ≤ 3 := by
      have h1 : (py_take3 (astype_str_cell col[i])).length =
          ((astype_str_cell col[i]).data.take 3).length := rfl
      rw [h1, List.length_take]
      omega
    refine ⟨Or.inr ⟨_, rfl, hlen3⟩, ?_, ?_⟩
    · intro s hx
      have hseq : py_take3 (astype_str_cell col[i]) = s := by
        simpa using hx
      constructor
      · intro hbad
        rw [hbad] at hseq
        have hl := congrArg String.length hseq
        have h4 : ("None" : String).length = 4 := by decide
        omega
      · intro hbad
        rw [hbad] at hseq
        have hl := congrArg String.length hseq
        have h4 : ("<NA>" : String).length = 4 := by decide
        omega
    · intro hx
      have hseq : py_take3 (astype_str_cell col[i]) = "nan" := by
        simpa using hx
      refine ⟨hi2, ?_, hseq⟩
      by_contra hle
      push_neg at hle
      have h1 : (astype_str_cell col[i]).data.take 3 =
          (astype_str_cell col[i]).data :=
        List.take_of_length_le hle
      have heq : py_take3 (astype_str_cell col[i]) = astype_str_cell col[i] := by
        unfold py_take3
        rw [h1]
      rw [heq] at hseq
      rw [hseq] at hs
      exact hs (by decide)

/-- Counterexample to claim C7 as stated: the non-sentinel input `nana`
survives sentinel replacement and is then truncated to the literal string
`nan`, so a sentinel token does appear as a literal output value. -/
theorem currency_sentinel_nan_cex :
    ¬ (∀ col : List Val, ∀ v ∈ md_currency_str_col col, ∀ s, v = Val.vStr s →
        ¬ s ∈ sentinels) := by
  intro hall
  exact hall [Val.vStr "nana"] (Val.vStr "nan") (by decide) "nan" rfl (by decide)

/-- Witness for the amended C7 at a concrete column. -/
theorem currency_str_col_normalized_witness :
    (md_currency_str_col [Val.vNaN, Val.vStr "USDX"]).get ⟨1, by decide⟩ =
        Val.vNone ∨
      ∃ s, (md_currency_str_col [Val.vNaN, Val.vStr "USDX"]).get ⟨1, by decide⟩ =
        Val.vStr s ∧ s.length ≤ 3 :=
  ((currency_str_col_normalized [Val.vNaN, Val.vStr "USDX"]).2 1 (by decide)).1
